import Mathlib

/-!
Verification of the chunked paired-FASTQ I/O stage of AdapterRemoval
(src/fastq_io.h): the `fastq_file_chunk` container, the `read_paired_fastq`
reader step and the `write_paired_fastq` writer step, together with the
ordering and recycling contract they uphold.  The repository excerpt contains
only the header; the bodies of the member functions are modelled from the
header's doc comments and the specification, as noted on each definition.
Streams are embedded as lists of lines (a line is a `String`).
-/

set_option maxHeartbeats 1000000

namespace AdapterRemoval

/-- Modelled from the spec: `read_type` is declared in commontypes.h, which is
not part of the excerpt.  Per the spec it is an enumerated value with exactly
two recognized mate members (`rt_mate_1`, `rt_mate_2`); the remaining
constructors stand for the other read categories the enumeration carries, none
of which is a recognized mate identity. -/
inductive read_type : Type where
  | rt_mate_1 : read_type
  | rt_mate_2 : read_type
  | rt_singleton : read_type
  | rt_collapsed : read_type
  | rt_discarded : read_type
deriving DecidableEq

open read_type

/-- The chunk container of fastq_io.h: a 1-based line offset, per-mate input
line batches (`mates`) and per-mate output line batches (`output`).  The C++
stores `mates` and `output` as vectors indexed by the mate enumerators; here
the two used slots are explicit fields. -/
structure fastq_file_chunk : Type where
  offset : Nat
  mates_1 : List String
  mates_2 : List String
  output_1 : List String
  output_2 : List String
deriving DecidableEq

/-- Slot of `mates` selected by a read type (unused slots read as empty). -/
def fastq_file_chunk.mates (c : fastq_file_chunk) : read_type → List String
  | rt_mate_1 => c.mates_1
  | rt_mate_2 => c.mates_2
  | _ => []

/-- Slot of `output` selected by a read type (unused slots read as empty). -/
def fastq_file_chunk.output (c : fastq_file_chunk) : read_type → List String
  | rt_mate_1 => c.output_1
  | rt_mate_2 => c.output_2
  | _ => []

/-- Overwrite the `mates` slot selected by a read type. -/
def fastq_file_chunk.setMates (c : fastq_file_chunk) (m : read_type) (l : List String) :
    fastq_file_chunk :=
  match m with
  | rt_mate_1 => { c with mates_1 := l }
  | rt_mate_2 => { c with mates_2 := l }
  | _ => c

/-- Overwrite the `output` slot selected by a read type. -/
def fastq_file_chunk.setOutput (c : fastq_file_chunk) (m : read_type) (l : List String) :
    fastq_file_chunk :=
  match m with
  | rt_mate_1 => { c with output_1 := l }
  | rt_mate_2 => { c with output_2 := l }
  | _ => c

/-- The C++ constructor `fastq_file_chunk(size_t offset_)`: a chunk representing
lines starting at the given (1-based) offset, with empty batches. -/
def fastq_file_chunk.make (o : Nat) : fastq_file_chunk :=
  { offset := o, mates_1 := [], mates_2 := [], output_1 := [], output_2 := [] }

/-- The reader step `read_paired_fastq`: private cursor `m_line_offset`
(1-based current line of the input file), the opened input stream `m_io_input`
(embedded as its remaining lines), and the mate identity `m_type`. -/
structure read_paired_fastq : Type where
  m_line_offset : Nat
  m_io_input : List String
  m_type : read_type
deriving DecidableEq

/-- Modelled from the spec: the body of the `read_paired_fastq` constructor is
absent from the excerpt (fastq_io.h only declares it).  Per the header comment
("Either rt_mate_1 or rt_mate_2; other values throw") and the spec, an invalid
mate identity fails with a configuration error before the input stream is
touched, while a valid one opens the stream with the cursor at line 1. -/
def read_paired_fastq.construct (mate : read_type) (stream : List String) :
    Except String read_paired_fastq :=
  match mate with
  | rt_mate_1 => Except.ok { m_line_offset := 1, m_io_input := stream, m_type := mate }
  | rt_mate_2 => Except.ok { m_line_offset := 1, m_io_input := stream, m_type := mate }
  | _ => Except.error "Unknown read type"

/-- A freshly constructed reader for a recognized mate: cursor at line 1,
stream untouched. -/
def reader0 (m : read_type) (stream : List String) : read_paired_fastq :=
  { m_line_offset := 1, m_io_input := stream, m_type := m }

/-- Modelled from the spec: the body of `read_paired_fastq::process` is absent
from the excerpt.  Per the header comments and the spec it reads up to `bs`
lines from the stream into `chunk.mates[mate]`, overwriting any prior content
of that slot, tags the chunk with the 1-based offset at which the batch starts,
and advances the private cursor by the number of lines actually read.  At end
of stream the stored batch has length 0 (the sentinel). -/
def read_paired_fastq.process (r : read_paired_fastq) (bs : Nat)
    (chunk : fastq_file_chunk) : read_paired_fastq × fastq_file_chunk :=
  let lines := r.m_io_input.take bs
  ({ m_line_offset := r.m_line_offset + lines.length,
     m_io_input := r.m_io_input.drop bs,
     m_type := r.m_type },
   { chunk.setMates r.m_type lines with offset := r.m_line_offset })

/-- Iterate `k` successive `process` calls on one reader instance, each on a
fresh blank chunk, collecting the produced chunks in call order. -/
def read_steps (bs : Nat) (r : read_paired_fastq) : Nat → read_paired_fastq × List fastq_file_chunk
  | 0 => (r, [])
  | k + 1 =>
    let p := r.process bs (fastq_file_chunk.make 0)
    let q := read_steps bs p.1 k
    (q.1, p.2 :: q.2)

/-- Fuel-bounded loop reading chunks until (and including) the end-of-stream
sentinel chunk. -/
def read_all_go (bs : Nat) (r : read_paired_fastq) : Nat → List fastq_file_chunk
  | 0 => []
  | fuel + 1 =>
    let p := r.process bs (fastq_file_chunk.make 0)
    if r.m_io_input = [] then [p.2] else p.2 :: read_all_go bs p.1 fuel

/-- All chunks a reader produces for its stream, in production order, ending
with the zero-length sentinel chunk.  For a positive batch size the fuel
`r.m_io_input.length + 1` is always sufficient. -/
def read_all (bs : Nat) (r : read_paired_fastq) : List fastq_file_chunk :=
  read_all_go bs r (r.m_io_input.length + 1)

/-- An output stream: the lines durably flushed so far, the lines still
buffered (written but not yet flushed), and whether the stream was closed. -/
structure ostream : Type where
  durable : List String
  pending : List String
  closed : Bool
deriving DecidableEq

/-- Append lines to the stream's buffer, verbatim. -/
def ostream.write (s : ostream) (lines : List String) : ostream :=
  { s with pending := s.pending ++ lines }

/-- Flush: all buffered lines become durable. -/
def ostream.flush (s : ostream) : ostream :=
  { durable := s.durable ++ s.pending, pending := [], closed := s.closed }

/-- Close: flushes the remaining buffer and marks the stream closed. -/
def ostream.close (s : ostream) : ostream :=
  { durable := s.durable ++ s.pending, pending := [], closed := true }

/-- The writer step `write_paired_fastq`: mate identity `m_type`, the progress
flag `m_progress` and the opened output stream `m_output`. -/
structure write_paired_fastq : Type where
  m_type : read_type
  m_progress : Bool
  m_output : ostream
deriving DecidableEq

/-- A freshly constructed writer: empty, open output stream. -/
def writer0 (m : read_type) (progress : Bool) : write_paired_fastq :=
  { m_type := m, m_progress := progress,
    m_output := { durable := [], pending := [], closed := false } }

/-- Modelled from the spec: the body of `write_paired_fastq::write_lines` is
absent from the excerpt.  Per the header comment ("Writes the given lines to
file, as is; no new-lines are added") it appends the lines verbatim to the
stream and clears the vector, returning the updated stream and the cleared
vector. -/
def write_paired_fastq.write_lines (file : ostream) (lines : List String) :
    ostream × List String :=
  (file.write lines, [])

/-- Modelled from the spec: the body of `write_paired_fastq::process` is absent
from the excerpt.  Per the header comments and the spec it writes
`chunk.output[mate]` to the output stream via `write_lines` and stores the
cleared list back in the chunk, returning the chunk for recycling. -/
def write_paired_fastq.process (w : write_paired_fastq) (chunk : fastq_file_chunk) :
    write_paired_fastq × fastq_file_chunk :=
  let p := write_paired_fastq.write_lines w.m_output (chunk.output w.m_type)
  ({ w with m_output := p.1 }, chunk.setOutput w.m_type p.2)

/-- Modelled from the spec: the body of `write_paired_fastq::finalize` is
absent from the excerpt.  Per the header comment it flushes the output file. -/
def write_paired_fastq.finalize (w : write_paired_fastq) : write_paired_fastq :=
  { w with m_output := w.m_output.flush }

/-- Modelled from the spec: the destructor body is absent from the excerpt.
Per the header comment ("Destructor; closes output file") teardown closes the
output stream, which flushes whatever is still buffered (the best-effort flush
when `finalize` was never called). -/
def write_paired_fastq.destruct (w : write_paired_fastq) : ostream :=
  w.m_output.close

/-- Feed a list of chunks to one writer instance, in list order. -/
def write_all (w : write_paired_fastq) : List fastq_file_chunk → write_paired_fastq
  | [] => w
  | c :: cs => write_all (w.process c).1 cs

/-- The identity transform stage for one mate: copies the input batch to the
output batch, leaving everything else in place. -/
def pass_through (m : read_type) (c : fastq_file_chunk) : fastq_file_chunk :=
  c.setOutput m (c.mates m)

/-- All lines passed to a writer by a list of chunks, in call order. -/
def written_lines (m : read_type) (cs : List fastq_file_chunk) : List String :=
  (cs.map (fun c => c.output m)).flatten

/-- A previously used chunk with nonempty contents in every slot. -/
def sample_chunk : fastq_file_chunk :=
  { offset := 7, mates_1 := ["m1"], mates_2 := ["m2"],
    output_1 := ["o1"], output_2 := ["o2"] }

/-- The reader state after a `process` call keeps the mate identity. -/
@[simp] lemma process_m_type (r : read_paired_fastq) (bs : Nat) (c : fastq_file_chunk) :
    (r.process bs c).1.m_type = r.m_type := rfl

/-- After a `process` call the stream has lost its first `bs` lines. -/
@[simp] lemma process_m_io_input (r : read_paired_fastq) (bs : Nat) (c : fastq_file_chunk) :
    (r.process bs c).1.m_io_input = r.m_io_input.drop bs := rfl

/-- The cursor advances by the number of lines actually read. -/
@[simp] lemma process_m_line_offset (r : read_paired_fastq) (bs : Nat) (c : fastq_file_chunk) :
    (r.process bs c).1.m_line_offset = r.m_line_offset + (r.m_io_input.take bs).length := rfl

/-- The produced chunk is tagged with the cursor before the read. -/
@[simp] lemma process_offset (r : read_paired_fastq) (bs : Nat) (c : fastq_file_chunk) :
    (r.process bs c).2.offset = r.m_line_offset := rfl

/-- The produced chunk carries the next `bs` stream lines in its mate slot,
regardless of the chunk's prior contents. -/
lemma process_mates_self (r : read_paired_fastq) (bs : Nat) (c : fastq_file_chunk)
    (m : read_type) (hr : r.m_type = m) (hm : m = read_type.rt_mate_1 ∨ m = read_type.rt_mate_2) :
    (r.process bs c).2.mates m = r.m_io_input.take bs := by
  rcases hm with h | h <;> subst h <;>
    simp [read_paired_fastq.process, fastq_file_chunk.setMates, fastq_file_chunk.mates, hr]

/-- A list with pairwise strictly increasing keys is the only ordering of its
elements with pairwise non-decreasing keys. -/
lemma perm_sorted_eq {α : Type} (key : α → Nat) :
    ∀ (l l' : List α), l.Perm l' → l.Pairwise (fun a b => key a < key b) →
      l'.Pairwise (fun a b => key a ≤ key b) → l = l' := by
  intro l
  induction l with
  | nil =>
    intro l' hp _ _
    exact hp.nil_eq
  | cons a t ih =>
    intro l' hp hs hs'
    cases l' with
    | nil => exact absurd hp.symm.nil_eq (by simp)
    | cons b t' =>
      have hst := List.pairwise_cons.mp hs
      have hst' := List.pairwise_cons.mp hs'
      have hab : a = b := by
        by_contra hne
        have hbmem : b ∈ a :: t := hp.symm.subset (List.mem_cons_self b t')
        have hbt : b ∈ t := by
          rcases List.mem_cons.mp hbmem with h | h
          · exact absurd h.symm hne
          · exact h
        have hamem : a ∈ b :: t' := hp.subset (List.mem_cons_self a t)
        have hat : a ∈ t' := by
          rcases List.mem_cons.mp hamem with h | h
          · exact absurd h hne
          · exact h
        have h1 : key a < key b := hst.1 b hbt
        have h2 : key b ≤ key a := hst'.1 a hat
        exact absurd h1 (not_lt.mpr h2)
      subst hab
      rw [ih t' hp.cons_inv hst.2 hst'.2]

/-- One unfolding step of the sentinel-terminated reading loop. -/
lemma read_all_go_succ (bs : Nat) (r : read_paired_fastq) (n : Nat) :
    read_all_go bs r (n + 1) =
      (r.process bs (fastq_file_chunk.make 0)).2 ::
        (if r.m_io_input = [] then []
         else read_all_go bs (r.process bs (fastq_file_chunk.make 0)).1 n) := by
  by_cases h : r.m_io_input = [] <;> simp [read_all_go, h]

/-- With sufficient fuel, the batches read cover the stream exactly, in order. -/
lemma read_all_go_flatten (bs : Nat) (hbs : 0 < bs) (m : read_type)
    (hm : m = read_type.rt_mate_1 ∨ m = read_type.rt_mate_2) :
    ∀ (fuel : Nat) (r : read_paired_fastq), r.m_io_input.length < fuel → r.m_type = m →
      ((read_all_go bs r fuel).map (fun c => c.mates m)).flatten = r.m_io_input := by
  intro fuel
  induction fuel with
  | zero =>
    intro r h _
    exact absurd h (Nat.not_lt_zero _)
  | succ n ih =>
    intro r h hr
    by_cases he : r.m_io_input = []
    · rw [read_all_go_succ bs r n, if_pos he]
      simp [process_mates_self r bs _ m hr hm, he]
    · rw [read_all_go_succ bs r n, if_neg he]
      rw [List.map_cons, List.flatten_cons]
      rw [process_mates_self r bs _ m hr hm]
      have hlen : (r.process bs (fastq_file_chunk.make 0)).1.m_io_input.length < n := by
        rw [process_m_io_input, List.length_drop]
        have h2 : 0 < r.m_io_input.length := List.length_pos.mpr he
        omega
      have ih2 := ih (r.process bs (fastq_file_chunk.make 0)).1 hlen hr
      rw [ih2, process_m_io_input]
      exact List.take_append_drop bs r.m_io_input

/-- Every chunk the loop produces has offset at least the current cursor. -/
lemma read_all_go_offset_lb (bs : Nat) :
    ∀ (fuel : Nat) (r : read_paired_fastq) (c : fastq_file_chunk),
      c ∈ read_all_go bs r fuel → r.m_line_offset ≤ c.offset := by
  intro fuel
  induction fuel with
  | zero =>
    intro r c hc
    simp [read_all_go] at hc
  | succ n ih =>
    intro r c hc
    rw [read_all_go_succ] at hc
    rcases List.mem_cons.mp hc with h | h
    · subst h
      rw [process_offset]
    · by_cases he : r.m_io_input = []
      · rw [if_pos he] at h
        simp at h
      · rw [if_neg he] at h
        have hlb := ih (r.process bs (fastq_file_chunk.make 0)).1 c h
        rw [process_m_line_offset] at hlb
        omega

/-- The chunks the loop produces have pairwise strictly increasing offsets. -/
lemma read_all_go_sorted (bs : Nat) (hbs : 0 < bs) :
    ∀ (fuel : Nat) (r : read_paired_fastq),
      (read_all_go bs r fuel).Pairwise (fun a b => a.offset < b.offset) := by
  intro fuel
  induction fuel with
  | zero =>
    intro r
    simp [read_all_go]
  | succ n ih =>
    intro r
    rw [read_all_go_succ]
    refine List.pairwise_cons.mpr ⟨?_, ?_⟩
    · intro b hb
      by_cases he : r.m_io_input = []
      · rw [if_pos he] at hb
        simp at hb
      · rw [if_neg he] at hb
        have hlb := read_all_go_offset_lb bs n (r.process bs (fastq_file_chunk.make 0)).1 b hb
        rw [process_m_line_offset] at hlb
        have hpos : 0 < (r.m_io_input.take bs).length := by
          rw [List.length_take]
          have h2 : 0 < r.m_io_input.length := List.length_pos.mpr he
          omega
        rw [process_offset]
        omega
    · by_cases he : r.m_io_input = []
      · rw [if_pos he]
        simp
      · rw [if_neg he]
        exact ih _

/-- The reading loop produces at least one chunk whenever it has fuel. -/
lemma read_all_go_ne_nil (bs : Nat) (r : read_paired_fastq) (n : Nat) :
    read_all_go bs r (n + 1) ≠ [] := by
  rw [read_all_go_succ]
  simp

/-- Cons preserves `getLast?` of a nonempty list. -/
lemma getLast?_cons_of_ne_nil {α : Type} (a : α) (l : List α) (h : l ≠ []) :
    (a :: l).getLast? = l.getLast? := by
  cases l with
  | nil => exact absurd rfl h
  | cons b t => exact List.getLast?_cons_cons

/-- With sufficient fuel, the last batch the loop produces is the zero-length
sentinel. -/
lemma read_all_go_last (bs : Nat) (hbs : 0 < bs) (m : read_type)
    (hm : m = read_type.rt_mate_1 ∨ m = read_type.rt_mate_2) :
    ∀ (fuel : Nat) (r : read_paired_fastq), r.m_io_input.length < fuel → r.m_type = m →
      ((read_all_go bs r fuel).map (fun c => c.mates m)).getLast? = some [] := by
  intro fuel
  induction fuel with
  | zero =>
    intro r h _
    exact absurd h (Nat.not_lt_zero _)
  | succ n ih =>
    intro r h hr
    by_cases he : r.m_io_input = []
    · rw [read_all_go_succ bs r n, if_pos he]
      simp [process_mates_self r bs _ m hr hm, he]
    · have hpos : 0 < r.m_io_input.length := List.length_pos.mpr he
      cases n with
      | zero =>
        omega
      | succ k =>
        rw [read_all_go_succ bs r (k + 1), if_neg he, List.map_cons]
        rw [getLast?_cons_of_ne_nil _ _ (by
          simp only [ne_eq, List.map_eq_nil_iff]
          exact read_all_go_ne_nil bs _ k)]
        refine ih (r.process bs (fastq_file_chunk.make 0)).1 ?_ hr
        rw [process_m_io_input, List.length_drop]
        omega

/-- With sufficient fuel, every batch followed by a nonempty batch is full. -/
lemma read_all_go_sizes (bs : Nat) (hbs : 0 < bs) (m : read_type)
    (hm : m = read_type.rt_mate_1 ∨ m = read_type.rt_mate_2) :
    ∀ (fuel : Nat) (r : read_paired_fastq), r.m_io_input.length < fuel → r.m_type = m →
      List.Chain' (fun a b => b ≠ [] → a.length = bs)
        ((read_all_go bs r fuel).map (fun c => c.mates m)) := by
  intro fuel
  induction fuel with
  | zero =>
    intro r _ _
    simp [read_all_go]
  | succ n ih =>
    intro r h hr
    by_cases he : r.m_io_input = []
    · rw [read_all_go_succ bs r n, if_pos he]
      simp
    · have hpos : 0 < r.m_io_input.length := List.length_pos.mpr he
      cases n with
      | zero =>
        omega
      | succ k =>
        rw [read_all_go_succ bs r (k + 1), if_neg he, List.map_cons]
        refine List.chain'_cons'.mpr ⟨?_, ?_⟩
        · intro b hb hbne
          rw [read_all_go_succ bs (r.process bs (fastq_file_chunk.make 0)).1 k,
            List.map_cons] at hb
          simp only [List.head?_cons, Option.mem_some_iff] at hb
          have hb2 : b = (r.process bs (fastq_file_chunk.make 0)).1.m_io_input.take bs := by
            rw [← hb]
            exact process_mates_self (r.process bs (fastq_file_chunk.make 0)).1 bs _ m hr hm
          have hdropne : r.m_io_input.drop bs ≠ [] := by
            intro hcon
            apply hbne
            rw [hb2, process_m_io_input, hcon]
            simp
          have hdl : 0 < (r.m_io_input.drop bs).length := List.length_pos.mpr hdropne
          rw [List.length_drop] at hdl
          rw [process_mates_self r bs _ m hr hm, List.length_take]
          omega
        · refine ih (r.process bs (fastq_file_chunk.make 0)).1 ?_ hr
          rw [process_m_io_input, List.length_drop]
          omega

/-- One unfolding step of `read_steps`. -/
lemma read_steps_succ (bs : Nat) (r : read_paired_fastq) (k : Nat) :
    read_steps bs r (k + 1) =
      ((read_steps bs (r.process bs (fastq_file_chunk.make 0)).1 k).1,
       (r.process bs (fastq_file_chunk.make 0)).2 ::
         (read_steps bs (r.process bs (fastq_file_chunk.make 0)).1 k).2) := rfl

/-- The cursor after `k` reads is the start cursor plus the lines consumed. -/
lemma read_steps_cursor (bs : Nat) (m : read_type)
    (hm : m = read_type.rt_mate_1 ∨ m = read_type.rt_mate_2) :
    ∀ (k : Nat) (r : read_paired_fastq), r.m_type = m →
      (read_steps bs r k).1.m_line_offset
        = r.m_line_offset + ((read_steps bs r k).2.map (fun c => (c.mates m).length)).sum := by
  intro k
  induction k with
  | zero =>
    intro r _
    simp [read_steps]
  | succ k ih =>
    intro r hr
    rw [read_steps_succ]
    have := ih (r.process bs (fastq_file_chunk.make 0)).1 hr
    rw [this, process_m_line_offset]
    rw [List.map_cons, List.sum_cons, process_mates_self r bs _ m hr hm]
    omega

/-- Successive chunks from one reader: the next offset is the previous offset
plus the lines consumed into the previous chunk. -/
lemma read_steps_chain (bs : Nat) (m : read_type)
    (hm : m = read_type.rt_mate_1 ∨ m = read_type.rt_mate_2) :
    ∀ (k : Nat) (r : read_paired_fastq), r.m_type = m →
      List.Chain' (fun a b => b.offset = a.offset + (a.mates m).length)
        (read_steps bs r k).2 := by
  intro k
  induction k with
  | zero =>
    intro r _
    simp [read_steps]
  | succ k ih =>
    intro r hr
    rw [read_steps_succ]
    refine List.chain'_cons'.mpr ⟨?_, ih _ hr⟩
    intro b hb
    cases k with
    | zero =>
      simp [read_steps] at hb
    | succ j =>
      rw [read_steps_succ] at hb
      simp only [List.head?_cons, Option.mem_some_iff] at hb
      rw [← hb, process_offset, process_m_line_offset, process_offset,
        process_mates_self r bs _ m hr hm]

/-- All slots of a blank chunk whose mate slot was overwritten by the empty
batch read as empty. -/
lemma mates_blank (mt m : read_type) (o : Nat) :
    ({ (fastq_file_chunk.make 0).setMates mt [] with offset := o } : fastq_file_chunk).mates m
      = [] := by
  cases mt <;> cases m <;> rfl

/-- From an exhausted stream, every further read produces a zero-length batch
and leaves the stream exhausted. -/
lemma read_steps_empty (bs : Nat) (m : read_type) :
    ∀ (k : Nat) (r : read_paired_fastq), r.m_io_input = [] →
      ((read_steps bs r k).2.map (fun c => c.mates m)) = List.replicate k ([] : List String)
      ∧ (read_steps bs r k).1.m_io_input = [] := by
  intro k
  induction k with
  | zero =>
    intro r he
    simp [read_steps, he]
  | succ k ih =>
    intro r he
    have hp1 : (r.process bs (fastq_file_chunk.make 0)).1.m_io_input = [] := by
      rw [process_m_io_input, he]
      simp
    obtain ⟨h1, h2⟩ := ih _ hp1
    rw [read_steps_succ]
    refine ⟨?_, h2⟩
    rw [List.map_cons, h1, List.replicate_succ]
    congr 1
    have ht : r.m_io_input.take bs = [] := by
      rw [he]
      simp
    show ({ (fastq_file_chunk.make 0).setMates r.m_type (r.m_io_input.take bs) with
      offset := r.m_line_offset } : fastq_file_chunk).mates m = []
    rw [ht]
    exact mates_blank r.m_type m _

/-- `write_all` keeps the writer's mate identity. -/
lemma write_all_m_type :
    ∀ (cs : List fastq_file_chunk) (w : write_paired_fastq),
      (write_all w cs).m_type = w.m_type := by
  intro cs
  induction cs with
  | nil =>
    intro w
    rfl
  | cons c cs ih =>
    intro w
    exact ih ((w.process c).1)

/-- `write_all` appends exactly the delivered output batches to the buffer. -/
lemma write_all_pending :
    ∀ (cs : List fastq_file_chunk) (w : write_paired_fastq),
      (write_all w cs).m_output.pending
        = w.m_output.pending ++ (cs.map (fun c => c.output w.m_type)).flatten := by
  intro cs
  induction cs with
  | nil =>
    intro w
    simp [write_all]
  | cons c cs ih =>
    intro w
    show (write_all (w.process c).1 cs).m_output.pending = _
    rw [ih ((w.process c).1)]
    show (w.m_output.pending ++ c.output w.m_type)
        ++ (cs.map (fun x => x.output w.m_type)).flatten
      = w.m_output.pending ++ ((c :: cs).map (fun x => x.output w.m_type)).flatten
    rw [List.map_cons, List.flatten_cons, List.append_assoc]

/-- `write_all` never flushes: the durable part of the stream is untouched. -/
lemma write_all_durable :
    ∀ (cs : List fastq_file_chunk) (w : write_paired_fastq),
      (write_all w cs).m_output.durable = w.m_output.durable := by
  intro cs
  induction cs with
  | nil =>
    intro w
    rfl
  | cons c cs ih =>
    intro w
    exact ih ((w.process c).1)

/-- The identity transform does not move the chunk's offset tag. -/
lemma pass_through_offset (m : read_type) (c : fastq_file_chunk) :
    (pass_through m c).offset = c.offset := by
  cases m <;> rfl

/-- For a recognized mate, the identity transform copies the input batch to the
output batch. -/
lemma pass_through_output (m : read_type) (c : fastq_file_chunk)
    (hm : m = read_type.rt_mate_1 ∨ m = read_type.rt_mate_2) :
    (pass_through m c).output m = c.mates m := by
  rcases hm with h | h <;> subst h <;> rfl

/-- `finalize` makes the whole buffer durable. -/
@[simp] lemma finalize_durable (w : write_paired_fastq) :
    (w.finalize).m_output.durable = w.m_output.durable ++ w.m_output.pending := rfl

/-- `finalize` empties the buffer. -/
@[simp] lemma finalize_pending (w : write_paired_fastq) :
    (w.finalize).m_output.pending = ([] : List String) := rfl

/-- Teardown flushes whatever is still buffered. -/
@[simp] lemma destruct_durable (w : write_paired_fastq) :
    (w.destruct).durable = w.m_output.durable ++ w.m_output.pending := rfl

/-- Teardown closes the stream. -/
@[simp] lemma destruct_closed (w : write_paired_fastq) :
    (w.destruct).closed = true := rfl

/-- C1: for every processing run and mate, any delivery of the produced
(pass-through transformed) chunks to that mate's `write_paired_fastq` instance
in non-decreasing `chunk.offset` order is forced to be the original production
order, and the resulting output stream content equals the input lines of that
mate, in the same order — even when transform stages complete chunks out of
their original arrival order (modelled as an arbitrary permutation of the
chunk list before the order requirement is applied). -/
theorem c1_order_preservation (bs : Nat) (hbs : 0 < bs) (stream : List String)
    (m : read_type) (hm : m = read_type.rt_mate_1 ∨ m = read_type.rt_mate_2) (p : Bool)
    (delivery : List fastq_file_chunk)
    (hperm : delivery.Perm ((read_all bs (reader0 m stream)).map (pass_through m)))
    (hord : delivery.Pairwise (fun a b => a.offset ≤ b.offset)) :
    delivery = (read_all bs (reader0 m stream)).map (pass_through m)
  ∧ ((write_all (writer0 m p) delivery).finalize).m_output.durable = stream := by
  have hsorted0 : (read_all bs (reader0 m stream)).Pairwise (fun a b => a.offset < b.offset) :=
    read_all_go_sorted bs hbs _ _
  have hsorted : ((read_all bs (reader0 m stream)).map (pass_through m)).Pairwise
      (fun a b => a.offset < b.offset) := by
    rw [List.pairwise_map]
    exact hsorted0.imp (fun hab => by simpa [pass_through_offset] using hab)
  have heq : ((read_all bs (reader0 m stream)).map (pass_through m)) = delivery :=
    perm_sorted_eq (fun c => c.offset) _ delivery hperm.symm hsorted hord
  refine ⟨heq.symm, ?_⟩
  rw [← heq, finalize_durable]
  rw [write_all_durable, write_all_pending]
  simp only [writer0]
  rw [List.map_map]
  rw [show ((fun c => c.output m) ∘ pass_through m) = (fun c => c.mates m) from
    funext (fun c => pass_through_output m c hm)]
  simp only [List.nil_append]
  exact read_all_go_flatten bs hbs m hm (stream.length + 1) (reader0 m stream)
    (Nat.lt_succ_self _) rfl

/-- C1 witness: a concrete three-line stream, batch size two, in-order
delivery. -/
theorem c1_order_preservation_witness :
    ((read_all 2 (reader0 read_type.rt_mate_1 ["a", "b", "c"])).map
        (pass_through read_type.rt_mate_1)
      = (read_all 2 (reader0 read_type.rt_mate_1 ["a", "b", "c"])).map
        (pass_through read_type.rt_mate_1))
  ∧ ((write_all (writer0 read_type.rt_mate_1 false)
        ((read_all 2 (reader0 read_type.rt_mate_1 ["a", "b", "c"])).map
          (pass_through read_type.rt_mate_1))).finalize).m_output.durable
      = ["a", "b", "c"] :=
  c1_order_preservation 2 (by decide) ["a", "b", "c"] read_type.rt_mate_1 (Or.inl rfl) false
    ((read_all 2 (reader0 read_type.rt_mate_1 ["a", "b", "c"])).map
      (pass_through read_type.rt_mate_1))
    (List.Perm.refl _) (by decide)

/-- C2: concatenating the mate batches produced by successive `process` calls
reproduces the stream's lines in order with no gaps or duplicates; every batch
followed by a nonempty batch has exactly the maximum number of lines; the
final call yields a zero-length batch; and a reused chunk's prior contents are
fully replaced — the stored batch and the resulting reader state are the same
as for a fresh chunk. -/
theorem c2_read_batches (bs : Nat) (hbs : 0 < bs) (stream : List String) (m : read_type)
    (hm : m = read_type.rt_mate_1 ∨ m = read_type.rt_mate_2)
    (r : read_paired_fastq) (hr : r.m_type = m) (c : fastq_file_chunk) :
    ((read_all bs (reader0 m stream)).map (fun ch => ch.mates m)).flatten = stream
  ∧ ((read_all bs (reader0 m stream)).map (fun ch => ch.mates m)).getLast? = some []
  ∧ List.Chain' (fun a b => b ≠ [] → a.length = bs)
      ((read_all bs (reader0 m stream)).map (fun ch => ch.mates m))
  ∧ (r.process bs c).2.mates m = r.m_io_input.take bs
  ∧ (r.process bs c).1 = (r.process bs (fastq_file_chunk.make 0)).1 := by
  refine ⟨?_, ?_, ?_, process_mates_self r bs c m hr hm, rfl⟩
  · exact read_all_go_flatten bs hbs m hm (stream.length + 1) (reader0 m stream)
      (Nat.lt_succ_self _) rfl
  · exact read_all_go_last bs hbs m hm (stream.length + 1) (reader0 m stream)
      (Nat.lt_succ_self _) rfl
  · exact read_all_go_sizes bs hbs m hm (stream.length + 1) (reader0 m stream)
      (Nat.lt_succ_self _) rfl

/-- C2 witness: a three-line stream read with batch size two, against a reader
with a used chunk. -/
theorem c2_read_batches_witness :
    ((read_all 2 (reader0 read_type.rt_mate_1 ["a", "b", "c"])).map
        (fun ch => ch.mates read_type.rt_mate_1)).flatten = ["a", "b", "c"] :=
  (c2_read_batches 2 (by decide) ["a", "b", "c"] read_type.rt_mate_1 (Or.inl rfl)
    { m_line_offset := 5, m_io_input := ["x"], m_type := read_type.rt_mate_1 } rfl
    { offset := 9, mates_1 := ["old1"], mates_2 := ["old2"],
      output_1 := ["po1"], output_2 := ["po2"] }).1

/-- C3: the chunk offset is 1-based — after `k` reads the cursor is 1 plus the
lines consumed in the first `k` batches; the offset tagged on chunk `i+1`
equals the offset of chunk `i` plus the lines consumed into chunk `i`; and a
10-line input with batch size 4 produces batches of sizes 4, 4, 2, 0 at
offsets 1, 5, 9, 11. -/
theorem c3_offset_accounting (bs : Nat) (stream : List String) (m : read_type)
    (hm : m = read_type.rt_mate_1 ∨ m = read_type.rt_mate_2) (k : Nat) :
    (read_steps bs (reader0 m stream) k).1.m_line_offset
      = 1 + ((read_steps bs (reader0 m stream) k).2.map (fun c => (c.mates m).length)).sum
  ∧ List.Chain' (fun a b => b.offset = a.offset + (a.mates m).length)
      (read_steps bs (reader0 m stream) k).2
  ∧ ((read_all 4 (reader0 read_type.rt_mate_1
        ["l01", "l02", "l03", "l04", "l05", "l06", "l07", "l08", "l09", "l10"])).map
        (fun c => (c.offset, (c.mates read_type.rt_mate_1).length)))
      = [(1, 4), (5, 4), (9, 2), (11, 0)] := by
  refine ⟨?_, ?_, ?_⟩
  · exact read_steps_cursor bs m hm k (reader0 m stream) rfl
  · exact read_steps_chain bs m hm k (reader0 m stream) rfl
  · rfl

/-- C3 witness: batch size 4 on a one-line stream, two reads. -/
theorem c3_offset_accounting_witness :
    ((read_all 4 (reader0 read_type.rt_mate_1
        ["l01", "l02", "l03", "l04", "l05", "l06", "l07", "l08", "l09", "l10"])).map
        (fun c => (c.offset, (c.mates read_type.rt_mate_1).length)))
      = [(1, 4), (5, 4), (9, 2), (11, 0)] :=
  (c3_offset_accounting 4 ["s"] read_type.rt_mate_1 (Or.inl rfl) 2).2.2

/-- C4: the writer appends `chunk.output[mate]` to the output stream verbatim,
line by line, inserting no line terminators, and never touches the durable
part; writing batches `["a\n","b\n"]` then `["c\n"]` in that call order yields
a stream containing exactly `a\nb\nc\n`. -/
theorem c4_write_verbatim (w : write_paired_fastq) (c : fastq_file_chunk) :
    ((w.process c).1.m_output.pending = w.m_output.pending ++ c.output w.m_type
  ∧ (w.process c).1.m_output.durable = w.m_output.durable)
  ∧ String.join ((write_all (writer0 read_type.rt_mate_1 false)
        [{ fastq_file_chunk.make 0 with output_1 := ["a\n", "b\n"] },
         { fastq_file_chunk.make 0 with output_1 := ["c\n"] }]).m_output.pending)
      = "a\nb\nc\n" := by
  refine ⟨⟨rfl, rfl⟩, ?_⟩
  rfl

/-- C5: after every `write_paired_fastq::process` call the chunk's output
batch for the writer's mate is empty, so recycling the chunk cannot leak a
previous cycle's output into a later cycle. -/
theorem c5_output_cleared (w : write_paired_fastq) (c : fastq_file_chunk) :
    ((w.process c).2).output w.m_type = [] := by
  cases ht : w.m_type <;>
    simp [write_paired_fastq.process, write_paired_fastq.write_lines,
      fastq_file_chunk.setOutput, fastq_file_chunk.output, ostream.write, ht]

/-- C6: on an exhausted stream, `process` returns a chunk whose mate batch has
length 0 (the sentinel, a normal return rather than an error), the stream
stays exhausted, and every further read from that reader again produces only
zero-length batches. -/
theorem c6_eof_sentinel (bs : Nat) (r : read_paired_fastq) (c : fastq_file_chunk)
    (h : r.m_io_input = []) (k : Nat) :
    ((r.process bs c).2).mates r.m_type = []
  ∧ (r.process bs c).1.m_io_input = []
  ∧ ((read_steps bs (r.process bs c).1 k).2.map (fun ch => ch.mates r.m_type))
      = List.replicate k ([] : List String) := by
  refine ⟨?_, ?_, ?_⟩
  · cases ht : r.m_type <;>
      simp [read_paired_fastq.process, fastq_file_chunk.setMates, fastq_file_chunk.mates,
        h, ht]
  · simp [h]
  · exact (read_steps_empty bs r.m_type k (r.process bs c).1 (by simp [h])).1

/-- C6 witness: a reader over the empty stream, two further reads. -/
theorem c6_eof_sentinel_witness :
    (((reader0 read_type.rt_mate_1 []).process 3 (fastq_file_chunk.make 0)).2).mates
        (reader0 read_type.rt_mate_1 []).m_type = []
  ∧ ((reader0 read_type.rt_mate_1 []).process 3 (fastq_file_chunk.make 0)).1.m_io_input = []
  ∧ ((read_steps 3 ((reader0 read_type.rt_mate_1 []).process 3
        (fastq_file_chunk.make 0)).1 2).2.map
        (fun ch => ch.mates (reader0 read_type.rt_mate_1 []).m_type))
      = List.replicate 2 ([] : List String) :=
  c6_eof_sentinel 3 (reader0 read_type.rt_mate_1 []) (fastq_file_chunk.make 0) rfl 2

/-- C7: constructing a reader with a mate identity other than the two
recognized values fails with the configuration error, and does so without
touching the input stream (the result is the same whatever the stream holds);
for the two recognized values construction succeeds, with the cursor at
line 1 and the stream intact. -/
theorem c7_construct_mate_check (m : read_type) (s : List String) :
    ((m ≠ read_type.rt_mate_1 ∧ m ≠ read_type.rt_mate_2) →
        read_paired_fastq.construct m s = Except.error "Unknown read type"
      ∧ read_paired_fastq.construct m s = read_paired_fastq.construct m [])
  ∧ (m = read_type.rt_mate_1 →
      read_paired_fastq.construct m s = Except.ok (reader0 m s))
  ∧ (m = read_type.rt_mate_2 →
      read_paired_fastq.construct m s = Except.ok (reader0 m s)) := by
  refine ⟨?_, ?_, ?_⟩
  · rintro ⟨h1, h2⟩
    cases m <;> simp_all [read_paired_fastq.construct]
  · intro h
    subst h
    rfl
  · intro h
    subst h
    rfl

/-- C7 witness: an unrecognized mate identity fails identically on any stream;
a recognized one succeeds. -/
theorem c7_construct_mate_check_witness :
    (read_paired_fastq.construct read_type.rt_singleton ["x"]
        = Except.error "Unknown read type"
      ∧ read_paired_fastq.construct read_type.rt_singleton ["x"]
        = read_paired_fastq.construct read_type.rt_singleton [])
  ∧ read_paired_fastq.construct read_type.rt_mate_1 ["x"]
      = Except.ok (reader0 read_type.rt_mate_1 ["x"]) :=
  ⟨(c7_construct_mate_check read_type.rt_singleton ["x"]).1 (by decide),
   (c7_construct_mate_check read_type.rt_mate_1 ["x"]).2.1 rfl⟩

/-- C8: after any sequence of writes, `finalize` followed by closing the
stream leaves exactly the lines previously passed to `write` durably flushed;
teardown without `finalize` still best-effort-flushes them on close. -/
theorem c8_finalize_flushes (m : read_type) (p : Bool) (cs : List fastq_file_chunk) :
    ((write_all (writer0 m p) cs).finalize.destruct.durable = written_lines m cs
  ∧ (write_all (writer0 m p) cs).finalize.destruct.closed = true)
  ∧ ((write_all (writer0 m p) cs).destruct.durable = written_lines m cs
  ∧ (write_all (writer0 m p) cs).destruct.closed = true) := by
  have hp := write_all_pending cs (writer0 m p)
  have hd := write_all_durable cs (writer0 m p)
  refine ⟨⟨?_, rfl⟩, ?_, rfl⟩
  · rw [destruct_durable, finalize_durable, finalize_pending, hd, hp]
    simp [writer0, written_lines]
  · rw [destruct_durable, hd, hp]
    simp [writer0, written_lines]

/-- C9: a reader's `process` call modifies only the chunk's offset and its own
mate's input batch — both output batches and the other mate's input batch are
returned exactly as they were. -/
theorem c9_reader_frame (bs : Nat) (r : read_paired_fastq) (c : fastq_file_chunk) :
    ((r.process bs c).2.output_1 = c.output_1 ∧ (r.process bs c).2.output_2 = c.output_2)
  ∧ (r.m_type = read_type.rt_mate_1 → (r.process bs c).2.mates_2 = c.mates_2)
  ∧ (r.m_type = read_type.rt_mate_2 → (r.process bs c).2.mates_1 = c.mates_1) := by
  refine ⟨⟨?_, ?_⟩, ?_, ?_⟩
  · cases ht : r.m_type <;>
      simp [read_paired_fastq.process, fastq_file_chunk.setMates, ht]
  · cases ht : r.m_type <;>
      simp [read_paired_fastq.process, fastq_file_chunk.setMates, ht]
  · intro ht
    simp [read_paired_fastq.process, fastq_file_chunk.setMates, ht]
  · intro ht
    simp [read_paired_fastq.process, fastq_file_chunk.setMates, ht]

/-- C9 witness: a mate-1 reader over a used chunk with nonempty slots. -/
theorem c9_reader_frame_witness :
    ((reader0 read_type.rt_mate_1 ["x", "y"]).process 1 sample_chunk).2.output_1
        = sample_chunk.output_1
  ∧ ((reader0 read_type.rt_mate_1 ["x", "y"]).process 1 sample_chunk).2.mates_2
        = sample_chunk.mates_2 :=
  ⟨(c9_reader_frame 1 (reader0 read_type.rt_mate_1 ["x", "y"]) sample_chunk).1.1,
   (c9_reader_frame 1 (reader0 read_type.rt_mate_1 ["x", "y"]) sample_chunk).2.1 rfl⟩

/-- C10: a writer's `process` call leaves the chunk's offset, both input
batches, and the other mate's output batch unchanged, and drains and clears
only its own mate's output batch, so the chunk can be recycled. -/
theorem c10_writer_frame (w : write_paired_fastq) (c : fastq_file_chunk) :
    ((w.process c).2.offset = c.offset
  ∧ (w.process c).2.mates_1 = c.mates_1 ∧ (w.process c).2.mates_2 = c.mates_2)
  ∧ (w.m_type = read_type.rt_mate_1 →
      (w.process c).2.output_2 = c.output_2 ∧ (w.process c).2.output_1 = [])
  ∧ (w.m_type = read_type.rt_mate_2 →
      (w.process c).2.output_1 = c.output_1 ∧ (w.process c).2.output_2 = []) := by
  refine ⟨⟨?_, ?_, ?_⟩, ?_, ?_⟩
  · cases ht : w.m_type <;>
      simp [write_paired_fastq.process, write_paired_fastq.write_lines,
        fastq_file_chunk.setOutput, ht]
  · cases ht : w.m_type <;>
      simp [write_paired_fastq.process, write_paired_fastq.write_lines,
        fastq_file_chunk.setOutput, ht]
  · cases ht : w.m_type <;>
      simp [write_paired_fastq.process, write_paired_fastq.write_lines,
        fastq_file_chunk.setOutput, ht]
  · intro ht
    simp [write_paired_fastq.process, write_paired_fastq.write_lines,
      fastq_file_chunk.setOutput, ht]
  · intro ht
    simp [write_paired_fastq.process, write_paired_fastq.write_lines,
      fastq_file_chunk.setOutput, ht]

/-- C10 witness: a mate-1 writer over a used chunk with nonempty slots. -/
theorem c10_writer_frame_witness :
    ((writer0 read_type.rt_mate_1 false).process sample_chunk).2.offset = sample_chunk.offset
  ∧ ((writer0 read_type.rt_mate_1 false).process sample_chunk).2.output_2
      = sample_chunk.output_2
  ∧ ((writer0 read_type.rt_mate_1 false).process sample_chunk).2.output_1 = [] :=
  ⟨(c10_writer_frame (writer0 read_type.rt_mate_1 false) sample_chunk).1.1,
   ((c10_writer_frame (writer0 read_type.rt_mate_1 false) sample_chunk).2.1 rfl).1,
   ((c10_writer_frame (writer0 read_type.rt_mate_1 false) sample_chunk).2.1 rfl).2⟩

end AdapterRemoval
